import Mathlib

/-!
Verification of the demo payment-matching engine, the in-memory demo session
store, and the realtime-simulation registry of the brianhardin.info
application (`app/services/demo.py`, `app/services/websocket.py`,
`app/models/demo.py`).

Modelling conventions:
* Money amounts, confidence scores and timestamps are exact rationals (`ℚ`);
  Python `float` arithmetic is modelled by exact rational arithmetic.
* Python strings are Lean `String`s; `str.replace` and the substring test
  (`in`) are re-implemented below on `List Char` so that they compute by
  kernel reduction.
* Presentational, nondeterministic fields (uuid-based ids, free-text
  processing notes, datetime-formatted payment ids) are omitted from the
  embedded records: no verified property mentions them.
-/

namespace DemoService

attribute [local semireducible] Rat.inv Rat.mul Rat.add Rat.sub

/-- Does `p` occur as a prefix of `l`?  (Helper for the Python string
operations `str.replace` and `in`.) -/
def matchesAt : List Char → List Char → Bool
  | [], _ => true
  | _ :: _, [] => false
  | p :: ps, c :: cs => p == c && matchesAt ps cs

/-- Python substring test `needle in hay` (contiguous occurrence; the empty
needle occurs in every string). -/
def containsSub (needle : List Char) : List Char → Bool
  | [] => matchesAt needle []
  | c :: rest => matchesAt needle (c :: rest) || containsSub needle rest

/-- One fuelled pass of Python `str.replace(old, new)`: scan left to right,
replacing non-overlapping occurrences of `old` by `new`.  The fuel is the
length of the scanned list, which bounds the number of steps. -/
def replaceAux (old new : List Char) : ℕ → List Char → List Char
  | 0, l => l
  | _ + 1, [] => []
  | fuel + 1, c :: rest =>
    if matchesAt old (c :: rest) then
      new ++ replaceAux old new fuel (rest.drop (old.length - 1))
    else
      c :: replaceAux old new fuel rest

/-- Python `s.replace(old, new)`. -/
def pyReplace (s old new : String) : String :=
  ⟨replaceAux old.data new.data s.data.length s.data⟩

/-- Python `round(q, 2)`: round to the nearest multiple of `1/100`, ties to
even (banker's rounding). -/
def round2 (q : ℚ) : ℚ :=
  let n := q * 100
  let f : ℤ := n.floor
  let r := n - f
  let k : ℤ :=
    if 1 / 2 < r then f + 1
    else if r < 1 / 2 then f
    else if f % 2 = 0 then f else f + 1
  (k : ℚ) / 100

/-! ## Data model (`app/models/demo.py`) -/

/-- Payment method enumeration (`PaymentMethod`). -/
inductive PaymentMethod where
  | ach
  | wire
  | check
deriving DecidableEq, Repr

/-- Open invoice in the AR ledger (`Invoice`).  The date fields of the
source model are omitted: only `days_outstanding` (already derived in the
source) enters the matching logic. -/
structure Invoice where
  invoice_id : String
  invoice_number : String
  customer_id : String
  customer_name : String
  amount : ℚ
  balance : ℚ
  days_outstanding : ℤ
deriving DecidableEq, Repr

/-- Payment entry form data (`PaymentEntry`).  `payment_date` and `memo` are
omitted (never read by the engine). -/
structure PaymentEntry where
  customer_id : String
  amount : ℚ
  payment_method : PaymentMethod
  reference : String
deriving DecidableEq, Repr

/-- Payment-to-invoice matching result (`PaymentMatch`).  The uuid-based
`payment_id` field of the source is omitted (nondeterministic, never read). -/
structure PaymentMatch where
  invoice_id : String
  amount_applied : ℚ
  confidence_score : ℚ
  match_type : String
deriving DecidableEq, Repr

/-- Result of processing one payment (`PaymentProcessingResult`).  The
datetime-formatted `payment_id` and the free-text `processing_notes` are
omitted (presentational, never read back). -/
structure PaymentProcessingResult where
  status : String
  match_list : List PaymentMatch
  remaining_amount : ℚ
deriving DecidableEq, Repr

/-! ## Matching engine (`PaymentProcessingService`) -/

/-- `PaymentProcessingService._calculate_match_confidence`. -/
def calculate_match_confidence (payment : PaymentEntry) (invoice : Invoice) : ℚ :=
  let confidence : ℚ :=
    if |payment.amount - invoice.balance| < 1 / 100 then 95 / 100
    else if |payment.amount - invoice.balance| / invoice.balance < 5 / 100 then 85 / 100
    else if containsSub
        (pyReplace (pyReplace invoice.invoice_number "-" "") "INV" "").data
        (pyReplace payment.reference "-" "").data then 9 / 10
    else 7 / 10
  let confidence := if 90 < invoice.days_outstanding then confidence * (9 / 10) else confidence
  round2 confidence

/-- Comparison used to sort candidate invoices: `a` may come before `b` iff
`b.days_outstanding ≤ a.days_outstanding` (descending days outstanding). -/
def daysDesc (a b : Invoice) : Prop :=
  b.days_outstanding ≤ a.days_outstanding

instance : DecidableRel daysDesc := fun a b =>
  inferInstanceAs (Decidable (b.days_outstanding ≤ a.days_outstanding))

instance : IsTotal Invoice daysDesc :=
  ⟨fun a b => le_total b.days_outstanding a.days_outstanding⟩

instance : IsTrans Invoice daysDesc :=
  ⟨fun _ _ _ h h' => le_trans h' h⟩

/-- Python `sorted(invoices, key=lambda x: x.days_outstanding, reverse=True)`:
the stable descending sort, realised as a stable insertion sort (the result
of a stable sort is uniquely determined by the comparison, so this is
observationally the source's Timsort call). -/
def sortByDaysDesc (invoices : List Invoice) : List Invoice :=
  List.insertionSort daysDesc invoices

/-- Match-type classification step of
`PaymentProcessingService._find_payment_matches`: `"exact"` when the applied
amount equals the balance and the remaining amount covers the balance,
`"partial"` when the applied amount is below the balance, `"manual"`
otherwise. -/
def matchTypeFor (amount_to_apply balance remaining : ℚ) : String :=
  if amount_to_apply = balance ∧ balance ≤ remaining then "exact"
  else if amount_to_apply < balance then "partial"
  else "manual"

/-- Loop body of `PaymentProcessingService._find_payment_matches`: walk the
sorted candidate list, threading the remaining payment amount. -/
def findMatchesLoop (payment : PaymentEntry) : List Invoice → ℚ → List PaymentMatch
  | [], _ => []
  | invoice :: rest, remaining =>
    if remaining ≤ 0 then []
    else if invoice.balance ≤ 0 then findMatchesLoop payment rest remaining
    else
      let confidence := calculate_match_confidence payment invoice
      if confidence < 1 / 2 then findMatchesLoop payment rest remaining
      else
        let amount_to_apply := min remaining invoice.balance
        { invoice_id := invoice.invoice_id
          amount_applied := amount_to_apply
          confidence_score := confidence
          match_type := matchTypeFor amount_to_apply invoice.balance remaining } ::
          findMatchesLoop payment rest (remaining - amount_to_apply)

/-- `PaymentProcessingService._find_payment_matches`. -/
def find_payment_matches (payment : PaymentEntry) (invoices : List Invoice) :
    List PaymentMatch :=
  findMatchesLoop payment (sortByDaysDesc invoices) payment.amount

/-- `PaymentProcessingService.get_customer_invoices`: open invoices of one
customer. -/
def get_customer_invoices (sample_invoices : List Invoice) (customer_id : String) :
    List Invoice :=
  sample_invoices.filter fun inv => inv.customer_id == customer_id && decide (0 < inv.balance)

/-- One iteration of `PaymentProcessingService._apply_payment_matches`:
decrement the balance of the first invoice carrying the match's invoice id,
floored at zero. -/
def applyMatchToInvoices (m : PaymentMatch) : List Invoice → List Invoice
  | [] => []
  | invoice :: rest =>
    if invoice.invoice_id == m.invoice_id then
      { invoice with balance := max 0 (invoice.balance - m.amount_applied) } :: rest
    else invoice :: applyMatchToInvoices m rest

/-- `PaymentProcessingService._apply_payment_matches`. -/
def apply_payment_matches (ms : List PaymentMatch) (invoices : List Invoice) :
    List Invoice :=
  ms.foldl (fun invs m => applyMatchToInvoices m invs) invoices

/-! ## Session store (`DemoServiceBase`) -/

/-- `DemoServiceBase.MAX_SESSIONS`. -/
def MAX_SESSIONS : ℕ := 100

/-- `DemoServiceBase.SESSION_TTL_SECONDS`. -/
def SESSION_TTL_SECONDS : ℚ := 3600

/-- Demo session record (`DemoSession`).  Only the identity and creation
time enter the store's logic; status/data updates never feed back into any
verified property, so those fields are omitted. -/
structure DemoSession where
  session_id : String
  created_at : ℚ
deriving DecidableEq, Repr

/-- The session store `self.sessions`: a Python dict in insertion order,
modelled as an association list keyed by `session_id` (uuid keys are
unique). -/
abbrev SessionStore := List DemoSession

/-- Dictionary lookup `self.sessions.get(session_id)`. -/
def lookupSession (sessions : SessionStore) (sid : String) : Option DemoSession :=
  sessions.find? fun s => s.session_id == sid

/-- Dictionary deletion `del self.sessions[session_id]`. -/
def eraseSession (sessions : SessionStore) (sid : String) : SessionStore :=
  sessions.filter fun s => s.session_id != sid

/-- `DemoServiceBase._cleanup_expired_sessions`: drop sessions whose age
exceeds the TTL.  `now` is the value of `datetime.now()` in seconds. -/
def cleanup_expired_sessions (now : ℚ) (sessions : SessionStore) : SessionStore :=
  sessions.filter fun s => !decide (SESSION_TTL_SECONDS < now - s.created_at)

/-- `DemoServiceBase.create_session`.  `new_id` stands for the fresh uuid of
the `DemoSession` constructor. -/
def create_session (now : ℚ) (new_id : String) (sessions : SessionStore) :
    Except String (DemoSession × SessionStore) :=
  let sessions := cleanup_expired_sessions now sessions
  if MAX_SESSIONS ≤ sessions.length then
    Except.error "Maximum number of demo sessions reached. Please try again later."
  else
    let s : DemoSession := { session_id := new_id, created_at := now }
    Except.ok (s, sessions ++ [s])

/-- `DemoServiceBase.get_session`: lazy eviction — an expired session is
deleted on read.  Returns the looked-up session (if live) together with the
store after the read's side effect. -/
def get_session (now : ℚ) (sessions : SessionStore) (sid : String) :
    Option DemoSession × SessionStore :=
  match lookupSession sessions sid with
  | none => (none, sessions)
  | some s =>
    if SESSION_TTL_SECONDS < now - s.created_at then (none, eraseSession sessions sid)
    else (some s, sessions)

/-! ## `PaymentProcessingService.process_payment` -/

/-- Mutable state of a `PaymentProcessingService` instance, as far as the
payment path reads or writes it (`self.sessions`, `self.sample_invoices`).
`processed_payments` only feeds the presentational payment id and is
omitted. -/
structure PaymentServiceState where
  sessions : SessionStore
  sample_invoices : List Invoice
deriving DecidableEq, Repr

/-- `PaymentProcessingService.process_payment`.  Raising `ValueError`
("Invalid session") is modelled by `Except.error`; on success the result is
returned together with the mutated service state. -/
def process_payment (now : ℚ) (st : PaymentServiceState) (session_id : String)
    (payment : PaymentEntry) :
    Except String (PaymentProcessingResult × PaymentServiceState) :=
  match get_session now st.sessions session_id with
  | (none, _) => Except.error "Invalid session"
  | (some _, sessions') =>
    let customer_invoices := get_customer_invoices st.sample_invoices payment.customer_id
    let ms := find_payment_matches payment customer_invoices
    let total_applied := (ms.map (fun m => m.amount_applied)).sum
    let remaining_amount := max 0 (payment.amount - total_applied)
    let status :=
      if remaining_amount = 0 then "matched"
      else if 0 < total_applied then "partial"
      else "exception"
    let result : PaymentProcessingResult :=
      { status := status, match_list := ms, remaining_amount := remaining_amount }
    Except.ok (result,
      { sessions := sessions'
        sample_invoices := apply_payment_matches ms st.sample_invoices })

/-! ## Realtime simulation registry (`RealtimeDataSimulator`) -/

/-- The set of session ids holding a task handle in
`RealtimeDataSimulator.active_simulations`, in dict insertion order. -/
abbrev SimRegistry := List String

/-- `RealtimeDataSimulator.start_payment_processing_simulation` (and its
pipeline/dashboard siblings): a second start while one is active is a
no-op; otherwise the new task handle is registered. -/
def start_simulation (reg : SimRegistry) (session_id : String) : SimRegistry :=
  if session_id ∈ reg then reg else reg ++ [session_id]

/-- `RealtimeDataSimulator.stop_simulation`: cancel the task and delete its
handle. -/
def stop_simulation (reg : SimRegistry) (session_id : String) : SimRegistry :=
  if session_id ∈ reg then reg.filter (fun sid => sid ≠ session_id) else reg

/-- Effect on the registry of the simulation task for `session_id`
terminating on its own (normal completion of the fixed step list, a caught
`CancelledError`, or the error-notification path):
`RealtimeDataSimulator._simulate_payment_processing` never touches
`active_simulations`, and no done-callback is registered on the task, so
the registry is unchanged. -/
def task_terminate (reg : SimRegistry) (_session_id : String) : SimRegistry :=
  reg

/-- Lookup of the first invoice carrying a given id (the scan order of
`_apply_payment_matches` and of any reader of `sample_invoices`). -/
def findInvoice : List Invoice → String → Option Invoice
  | [], _ => none
  | inv :: rest, id => if inv.invoice_id == id then some inv else findInvoice rest id

/-! ## Concrete scenario inputs -/

/-- The spec's scenario ledger: customer CUST001 with a single open invoice
of balance 10000.00, 45 days outstanding. -/
def scenarioInvoice : Invoice :=
  { invoice_id := "INV-001-001"
    invoice_number := "INV-2024-0001"
    customer_id := "CUST001"
    customer_name := "Acme Corporation"
    amount := 10000
    balance := 10000
    days_outstanding := 45 }

/-- The spec's scenario payment of 4000.00 from CUST001. -/
def scenarioPayment : PaymentEntry :=
  { customer_id := "CUST001"
    amount := 4000
    payment_method := PaymentMethod.ach
    reference := "REF-12345" }

/-- Service state holding one live session "s1" (created at time 0) and the
scenario invoice. -/
def scenarioState : PaymentServiceState :=
  { sessions := [{ session_id := "s1", created_at := 0 }]
    sample_invoices := [scenarioInvoice] }

/-- The match the scenario run produces. -/
def scenarioMatch : PaymentMatch :=
  { invoice_id := "INV-001-001"
    amount_applied := 4000
    confidence_score := 7 / 10
    match_type := "partial" }

/-- The result the scenario run produces. -/
def scenarioResult : PaymentProcessingResult :=
  { status := "matched"
    match_list := [scenarioMatch]
    remaining_amount := 0 }

/-- The service state after the scenario run. -/
def scenarioFinalState : PaymentServiceState :=
  { sessions := [{ session_id := "s1", created_at := 0 }]
    sample_invoices := [{ scenarioInvoice with balance := 6000 }] }

/-- Two invoices of one customer with equal days outstanding (a tie for the
candidate sort). -/
def tieInvoiceA : Invoice :=
  { invoice_id := "INV-T-001"
    invoice_number := "INV-2024-0101"
    customer_id := "CUST002"
    customer_name := "TechStart Inc"
    amount := 1000
    balance := 1000
    days_outstanding := 45 }

/-- Second invoice of the tie, identical age. -/
def tieInvoiceB : Invoice :=
  { invoice_id := "INV-T-002"
    invoice_number := "INV-2024-0102"
    customer_id := "CUST002"
    customer_name := "TechStart Inc"
    amount := 1000
    balance := 1000
    days_outstanding := 45 }

/-- A payment large enough to touch both tied invoices. -/
def tiePayment : PaymentEntry :=
  { customer_id := "CUST002"
    amount := 1500
    payment_method := PaymentMethod.wire
    reference := "REF-777" }

/-- A store of 100 live sessions (the capacity ceiling). -/
def fullStore : SessionStore :=
  (List.range 100).map fun i => { session_id := toString i, created_at := 0 }

/-! ## Lemmas about the matching loop -/

/-- Unfolding equation for `findMatchesLoop` on a cons cell. -/
theorem findMatchesLoop_cons (p : PaymentEntry) (inv : Invoice) (rest : List Invoice)
    (r : ℚ) :
    findMatchesLoop p (inv :: rest) r =
      if r ≤ 0 then []
      else if inv.balance ≤ 0 then findMatchesLoop p rest r
      else if calculate_match_confidence p inv < 1 / 2 then findMatchesLoop p rest r
      else
        { invoice_id := inv.invoice_id
          amount_applied := min r inv.balance
          confidence_score := calculate_match_confidence p inv
          match_type := matchTypeFor (min r inv.balance) inv.balance r } ::
          findMatchesLoop p rest (r - min r inv.balance) := rfl

/-- The total amount applied by the matching loop never exceeds the remaining
amount it starts from (floored at zero). -/
theorem findMatchesLoop_sum_le (p : PaymentEntry) :
    ∀ (l : List Invoice) (r : ℚ),
      ((findMatchesLoop p l r).map fun m => m.amount_applied).sum ≤ max r 0
  | [], r => by simp [findMatchesLoop, le_max_iff]
  | inv :: rest, r => by
    rw [findMatchesLoop_cons]
    split_ifs with h1 h2 h3
    · simp [le_max_iff]
    · exact findMatchesLoop_sum_le p rest r
    · exact findMatchesLoop_sum_le p rest r
    · have hr : (0 : ℚ) < r := lt_of_not_ge h1
      have hmin : min r inv.balance ≤ r := min_le_left _ _
      have ih := findMatchesLoop_sum_le p rest (r - min r inv.balance)
      have hmax : max (r - min r inv.balance) 0 = r - min r inv.balance := by
        apply max_eq_left; linarith
      rw [hmax] at ih
      simp only [List.map_cons, List.sum_cons]
      have : max r 0 = r := max_eq_left (le_of_lt hr)
      rw [this]
      linarith

/-- Every match produced by the loop applies a positive amount, to an
invoice of the candidate list with positive balance at least the applied
amount. -/
theorem findMatchesLoop_mem (p : PaymentEntry) :
    ∀ (l : List Invoice) (r : ℚ) (m : PaymentMatch), m ∈ findMatchesLoop p l r →
      0 < m.amount_applied ∧
        ∃ inv ∈ l, m.invoice_id = inv.invoice_id ∧ 0 < inv.balance ∧
          m.amount_applied ≤ inv.balance
  | [], r, m => by simp [findMatchesLoop]
  | inv :: rest, r, m => by
    rw [findMatchesLoop_cons]
    split_ifs with h1 h2 h3
    · simp
    · intro hm
      obtain ⟨hpos, inv', hinv', hrest⟩ := findMatchesLoop_mem p rest r m hm
      exact ⟨hpos, inv', List.mem_cons_of_mem _ hinv', hrest⟩
    · intro hm
      obtain ⟨hpos, inv', hinv', hrest⟩ := findMatchesLoop_mem p rest r m hm
      exact ⟨hpos, inv', List.mem_cons_of_mem _ hinv', hrest⟩
    · intro hm
      rcases List.mem_cons.mp hm with hm | hm
      · subst hm
        refine ⟨lt_min (lt_of_not_ge h1) (lt_of_not_ge h2), inv, List.mem_cons_self _ _,
          rfl, lt_of_not_ge h2, min_le_right _ _⟩
      · obtain ⟨hpos, inv', hinv', hrest⟩ :=
          findMatchesLoop_mem p rest (r - min r inv.balance) m hm
        exact ⟨hpos, inv', List.mem_cons_of_mem _ hinv', hrest⟩

/-- The invoice ids of the produced matches form a sublist of the candidate
list's invoice ids: matches are emitted in candidate order, each candidate
at most once. -/
theorem findMatchesLoop_ids_sublist (p : PaymentEntry) :
    ∀ (l : List Invoice) (r : ℚ),
      ((findMatchesLoop p l r).map fun m => m.invoice_id).Sublist
        (l.map fun inv => inv.invoice_id)
  | [], r => by simp [findMatchesLoop]
  | inv :: rest, r => by
    rw [findMatchesLoop_cons]
    split_ifs with h1 h2 h3
    · simp
    · exact (findMatchesLoop_ids_sublist p rest r).cons _
    · exact (findMatchesLoop_ids_sublist p rest r).cons _
    · simpa using (findMatchesLoop_ids_sublist p rest (r - min r inv.balance)).cons₂ inv.invoice_id

/-- When the applied amount is `min remaining balance`, the `"manual"`
branch of the classification is unreachable: if the applied amount is not
below the balance it equals the balance with `balance ≤ remaining`, which
lands in the `"exact"` branch. -/
theorem matchTypeFor_min (r b : ℚ) :
    matchTypeFor (min r b) b r = "exact" ∨ matchTypeFor (min r b) b r = "partial" := by
  unfold matchTypeFor
  split_ifs with he hp
  · exact Or.inl rfl
  · exact Or.inr rfl
  · exfalso
    have hmb : min r b = b := le_antisymm (min_le_right _ _) (not_lt.mp hp)
    exact he ⟨hmb, min_eq_right_iff.mp hmb⟩

/-- The third (`"manual"`) classification branch is never taken by the
matching loop. -/
theorem findMatchesLoop_match_type (p : PaymentEntry) :
    ∀ (l : List Invoice) (r : ℚ) (m : PaymentMatch), m ∈ findMatchesLoop p l r →
      m.match_type = "exact" ∨ m.match_type = "partial"
  | [], r, m => by simp [findMatchesLoop]
  | inv :: rest, r, m => by
    rw [findMatchesLoop_cons]
    split_ifs with h1 h2 h3
    · simp
    · exact findMatchesLoop_match_type p rest r m
    · exact findMatchesLoop_match_type p rest r m
    · intro hm
      rcases List.mem_cons.mp hm with hm | hm
      · subst hm
        exact matchTypeFor_min r inv.balance
      · exact findMatchesLoop_match_type p rest (r - min r inv.balance) m hm

/-! ## Lemmas about the candidate sort -/

/-- The stable descending sort produces a list whose consecutive
days-outstanding values are non-increasing. -/
theorem sortByDaysDesc_chain (l : List Invoice) :
    (sortByDaysDesc l).Chain' fun a b => b.days_outstanding ≤ a.days_outstanding :=
  (List.sorted_insertionSort daysDesc l).chain'

/-- The sort is a permutation of its input. -/
theorem sortByDaysDesc_perm (l : List Invoice) : List.Perm (sortByDaysDesc l) l :=
  List.perm_insertionSort daysDesc l

/-! ## Lemmas about applying matches -/

/-- Applying one match does not change the id sequence of the ledger. -/
theorem applyMatch_ids (m : PaymentMatch) :
    ∀ invs : List Invoice,
      (applyMatchToInvoices m invs).map (fun i => i.invoice_id) =
        invs.map fun i => i.invoice_id
  | [] => rfl
  | inv :: rest => by
    unfold applyMatchToInvoices
    split_ifs with h
    · simp
    · simpa using applyMatch_ids m rest

/-- Applying one match rewrites the balance of the first invoice carrying
the match's id to `max 0 (balance - amount_applied)`. -/
theorem findInvoice_applyMatch_self (m : PaymentMatch) :
    ∀ invs : List Invoice,
      findInvoice (applyMatchToInvoices m invs) m.invoice_id =
        (findInvoice invs m.invoice_id).map fun inv =>
          { inv with balance := max 0 (inv.balance - m.amount_applied) }
  | [] => rfl
  | inv :: rest => by
    unfold applyMatchToInvoices
    split_ifs with h
    · unfold findInvoice
      rw [if_pos h, if_pos h]
      rfl
    · unfold findInvoice
      rw [if_neg h, if_neg h]
      exact findInvoice_applyMatch_self m rest

/-- Applying one match leaves lookups of every other id unchanged. -/
theorem findInvoice_applyMatch_other (m : PaymentMatch) (id : String)
    (hne : id ≠ m.invoice_id) :
    ∀ invs : List Invoice,
      findInvoice (applyMatchToInvoices m invs) id = findInvoice invs id
  | [] => rfl
  | inv :: rest => by
    unfold applyMatchToInvoices
    split_ifs with h
    · have hid : inv.invoice_id = m.invoice_id := by simpa using h
      have hfalse : ¬ (inv.invoice_id == id) = true := by
        simp only [beq_iff_eq, hid]
        exact fun hh => hne hh.symm
      unfold findInvoice
      rw [if_neg hfalse, if_neg hfalse]
    · by_cases hid : (inv.invoice_id == id) = true
      · unfold findInvoice
        rw [if_pos hid, if_pos hid]
      · unfold findInvoice
        rw [if_neg hid, if_neg hid]
        exact findInvoice_applyMatch_other m id hne rest

/-- Applying a list of matches none of which carries `id` leaves the lookup
of `id` unchanged. -/
theorem findInvoice_applyMatches_other (id : String) :
    ∀ (ms : List PaymentMatch) (invs : List Invoice),
      (∀ m ∈ ms, m.invoice_id ≠ id) →
      findInvoice (apply_payment_matches ms invs) id = findInvoice invs id
  | [], invs, _ => rfl
  | m :: rest, invs, h => by
    have hstep : apply_payment_matches (m :: rest) invs =
        apply_payment_matches rest (applyMatchToInvoices m invs) := rfl
    rw [hstep,
      findInvoice_applyMatches_other id rest (applyMatchToInvoices m invs)
        fun m' hm' => h m' (List.mem_cons_of_mem _ hm'),
      findInvoice_applyMatch_other m id
        (fun he => h m (List.mem_cons_self _ _) he.symm) invs]

/-- After the apply phase, the first invoice carrying a matched id has its
balance decremented (floored at zero), provided the match ids are distinct
(so no second match touches the same invoice). -/
theorem findInvoice_applyMatches_self :
    ∀ (ms : List PaymentMatch) (invs : List Invoice),
      ((ms.map fun m => m.invoice_id).Nodup) →
      ∀ m ∈ ms,
        findInvoice (apply_payment_matches ms invs) m.invoice_id =
          (findInvoice invs m.invoice_id).map fun inv =>
            { inv with balance := max 0 (inv.balance - m.amount_applied) }
  | [], _, _ => by simp
  | m0 :: rest, invs, hnd => by
    intro m hm
    have hstep : apply_payment_matches (m0 :: rest) invs =
        apply_payment_matches rest (applyMatchToInvoices m0 invs) := rfl
    simp only [List.map_cons, List.nodup_cons] at hnd
    rcases List.mem_cons.mp hm with hm | hm
    · subst hm
      rw [hstep, findInvoice_applyMatches_other m.invoice_id rest _
        fun m' hm' he => hnd.1 (he ▸ List.mem_map_of_mem _ hm'),
        findInvoice_applyMatch_self]
    · have hne : m.invoice_id ≠ m0.invoice_id := by
        intro he
        exact hnd.1 (he ▸ List.mem_map_of_mem (fun m => m.invoice_id) hm)
      rw [hstep, findInvoice_applyMatches_self rest (applyMatchToInvoices m0 invs) hnd.2 m hm,
        findInvoice_applyMatch_other m0 m.invoice_id hne invs]

/-- Applying one match keeps all balances nonnegative. -/
theorem applyMatch_balance_nonneg (m : PaymentMatch) :
    ∀ invs : List Invoice, (∀ inv ∈ invs, 0 ≤ inv.balance) →
      ∀ inv ∈ applyMatchToInvoices m invs, 0 ≤ inv.balance
  | [], _ => by simp [applyMatchToInvoices]
  | inv0 :: rest, h => by
    unfold applyMatchToInvoices
    split_ifs with hif
    · intro inv hinv
      rcases List.mem_cons.mp hinv with hinv | hinv
      · subst hinv
        exact le_max_left _ _
      · exact h inv (List.mem_cons_of_mem _ hinv)
    · intro inv hinv
      rcases List.mem_cons.mp hinv with hinv | hinv
      · subst hinv
        exact h inv (List.mem_cons_self _ _)
      · exact applyMatch_balance_nonneg m rest
          (fun i hi => h i (List.mem_cons_of_mem _ hi)) inv hinv

/-- The apply phase keeps all balances nonnegative. -/
theorem applyMatches_balance_nonneg :
    ∀ (ms : List PaymentMatch) (invs : List Invoice),
      (∀ inv ∈ invs, 0 ≤ inv.balance) →
      ∀ inv ∈ apply_payment_matches ms invs, 0 ≤ inv.balance
  | [], _invs, h => h
  | m :: rest, invs, h =>
    applyMatches_balance_nonneg rest (applyMatchToInvoices m invs)
      (applyMatch_balance_nonneg m invs h)

/-- With pairwise-distinct invoice ids, looking up a member invoice's id
finds that invoice. -/
theorem findInvoice_eq_of_nodup :
    ∀ invs : List Invoice, ((invs.map fun i => i.invoice_id).Nodup) →
      ∀ inv ∈ invs, findInvoice invs inv.invoice_id = some inv
  | [], _ => by simp
  | inv0 :: rest, hnd => by
    intro inv hinv
    simp only [List.map_cons, List.nodup_cons] at hnd
    rcases List.mem_cons.mp hinv with hinv | hinv
    · subst hinv
      unfold findInvoice
      rw [if_pos (beq_self_eq_true _)]
    · have hne : ¬ (inv0.invoice_id == inv.invoice_id) = true := by
        simp only [beq_iff_eq]
        intro he
        exact hnd.1 (he ▸ List.mem_map_of_mem (fun i => i.invoice_id) hinv)
      unfold findInvoice
      rw [if_neg hne]
      exact findInvoice_eq_of_nodup rest hnd.2 inv hinv

/-! ## Lemmas about `process_payment` and the session store -/

/-- A successful `process_payment` run is exactly the branch of the source
that computes matches over the customer's open invoices, derives the status
from the remaining amount, and applies the matches to the ledger. -/
theorem process_payment_ok_inv (now : ℚ) (st : PaymentServiceState) (sid : String)
    (p : PaymentEntry) (res : PaymentProcessingResult) (st' : PaymentServiceState)
    (hrun : process_payment now st sid p = Except.ok (res, st')) :
    res.match_list = find_payment_matches p (get_customer_invoices st.sample_invoices p.customer_id)
    ∧ res.remaining_amount =
        max 0 (p.amount - (res.match_list.map fun m => m.amount_applied).sum)
    ∧ res.status =
        (if res.remaining_amount = 0 then "matched"
         else if 0 < (res.match_list.map fun m => m.amount_applied).sum then "partial"
         else "exception")
    ∧ st'.sample_invoices = apply_payment_matches res.match_list st.sample_invoices := by
  unfold process_payment at hrun
  split at hrun
  · exact absurd hrun (by simp)
  · rename_i s sessions heq
    simp only [Except.ok.injEq, Prod.mk.injEq] at hrun
    obtain ⟨hres, hst⟩ := hrun
    subst hres
    subst hst
    exact ⟨rfl, rfl, rfl, rfl⟩

/-- `process_payment` raises only the "Invalid session" error, and only
when the session lookup fails or the session is expired. -/
theorem process_payment_error_iff (now : ℚ) (st : PaymentServiceState) (sid : String)
    (p : PaymentEntry) :
    (process_payment now st sid p = Except.error "Invalid session" ↔
      (get_session now st.sessions sid).1 = none) ∧
    (∀ e, process_payment now st sid p = Except.error e → e = "Invalid session") := by
  unfold process_payment
  rcases h : get_session now st.sessions sid with ⟨fst, snd⟩
  cases fst with
  | none => exact ⟨by simp, fun e he => by simpa using he.symm⟩
  | some s =>
    refine ⟨⟨fun he => absurd he (by simp), fun he => by simp at he⟩, fun e he => ?_⟩
    simp at he

/-- `get_session` returns `none` exactly for unknown or expired ids. -/
theorem get_session_none_iff (now : ℚ) (sessions : SessionStore) (sid : String) :
    (get_session now sessions sid).1 = none ↔
      lookupSession sessions sid = none ∨
        ∃ s, lookupSession sessions sid = some s ∧
          SESSION_TTL_SECONDS < now - s.created_at := by
  unfold get_session
  rcases h : lookupSession sessions sid with _ | s
  · simp
  · simp only [h]
    split_ifs with hexp
    · simp [hexp]
    · simp [hexp]

/-- Every invoice selected by `get_customer_invoices` belongs to the
requested customer and has positive balance. -/
theorem get_customer_invoices_mem (sample : List Invoice) (cid : String) :
    ∀ inv ∈ get_customer_invoices sample cid,
      inv ∈ sample ∧ inv.customer_id = cid ∧ 0 < inv.balance := by
  intro inv hinv
  unfold get_customer_invoices at hinv
  have := List.mem_filter.mp hinv
  refine ⟨this.1, ?_, ?_⟩
  · have hb := this.2
    simp only [Bool.and_eq_true, beq_iff_eq, decide_eq_true_eq] at hb
    exact hb.1
  · have hb := this.2
    simp only [Bool.and_eq_true, beq_iff_eq, decide_eq_true_eq] at hb
    exact hb.2

/-- With a live session, `process_payment` succeeds. -/
theorem process_payment_isOk (now : ℚ) (st : PaymentServiceState) (sid : String)
    (p : PaymentEntry) (s : DemoSession)
    (hs : (get_session now st.sessions sid).1 = some s) :
    ∃ res st', process_payment now st sid p = Except.ok (res, st') := by
  unfold process_payment
  rcases h : get_session now st.sessions sid with ⟨fst, snd⟩
  rw [h] at hs
  simp only at hs
  subst hs
  exact ⟨_, _, rfl⟩

/-- The total applied by `find_payment_matches` never exceeds the payment
amount (for positive payment amounts). -/
theorem find_payment_matches_sum_le (p : PaymentEntry) (invoices : List Invoice)
    (hamt : 0 < p.amount) :
    ((find_payment_matches p invoices).map fun m => m.amount_applied).sum ≤ p.amount := by
  have h := findMatchesLoop_sum_le p (sortByDaysDesc invoices) p.amount
  rwa [max_eq_left (le_of_lt hamt)] at h

/-- Provenance of a produced match, lifted through the candidate sort. -/
theorem find_payment_matches_mem (p : PaymentEntry) (invoices : List Invoice)
    (m : PaymentMatch) (hm : m ∈ find_payment_matches p invoices) :
    0 < m.amount_applied ∧
      ∃ inv ∈ invoices, m.invoice_id = inv.invoice_id ∧ 0 < inv.balance ∧
        m.amount_applied ≤ inv.balance := by
  obtain ⟨hpos, inv, hinv, hrest⟩ := findMatchesLoop_mem p (sortByDaysDesc invoices) p.amount m hm
  exact ⟨hpos, inv, (sortByDaysDesc_perm invoices).mem_iff.mp hinv, hrest⟩

/-- The ids of the produced matches are pairwise distinct whenever the
ledger's ids are. -/
theorem find_payment_matches_ids_nodup (p : PaymentEntry) (sample : List Invoice)
    (hnd : (sample.map fun i => i.invoice_id).Nodup) :
    ((find_payment_matches p (get_customer_invoices sample p.customer_id)).map
      fun m => m.invoice_id).Nodup := by
  have hfilter : ((get_customer_invoices sample p.customer_id).map
      fun i => i.invoice_id).Nodup := by
    have hsub : (get_customer_invoices sample p.customer_id).Sublist sample :=
      List.filter_sublist sample
    exact hnd.sublist (hsub.map fun i => i.invoice_id)
  have hsorted : ((sortByDaysDesc (get_customer_invoices sample p.customer_id)).map
      fun i => i.invoice_id).Nodup := by
    have hperm := (sortByDaysDesc_perm (get_customer_invoices sample p.customer_id)).map
      fun i => i.invoice_id
    exact hperm.nodup_iff.mpr hfilter
  exact hsorted.sublist
    (findMatchesLoop_ids_sublist p (sortByDaysDesc (get_customer_invoices sample p.customer_id))
      p.amount)

/-- Each applied amount is positive, hence the applied total is nonnegative. -/
theorem find_payment_matches_sum_nonneg (p : PaymentEntry) (invoices : List Invoice) :
    0 ≤ ((find_payment_matches p invoices).map fun m => m.amount_applied).sum := by
  apply List.sum_nonneg
  intro x hx
  obtain ⟨m, hm, hmx⟩ := List.mem_map.mp hx
  exact le_of_lt (hmx ▸ (find_payment_matches_mem p invoices m hm).1)

/-! ## Confidence score lemmas -/

/-- Zeta-reduced form of `_calculate_match_confidence`. -/
theorem calculate_match_confidence_eq (p : PaymentEntry) (inv : Invoice) :
    calculate_match_confidence p inv =
      round2 (if 90 < inv.days_outstanding then
          (if |p.amount - inv.balance| < 1 / 100 then 95 / 100
           else if |p.amount - inv.balance| / inv.balance < 5 / 100 then 85 / 100
           else if containsSub
               (pyReplace (pyReplace inv.invoice_number "-" "") "INV" "").data
               (pyReplace p.reference "-" "").data then 9 / 10
           else 7 / 10) * (9 / 10)
        else
          if |p.amount - inv.balance| < 1 / 100 then 95 / 100
          else if |p.amount - inv.balance| / inv.balance < 5 / 100 then 85 / 100
          else if containsSub
              (pyReplace (pyReplace inv.invoice_number "-" "") "INV" "").data
              (pyReplace p.reference "-" "").data then 9 / 10
          else 7 / 10) := rfl

/-- The confidence score takes one of exactly eight values. -/
theorem confidence_mem (p : PaymentEntry) (inv : Invoice) :
    calculate_match_confidence p inv ∈
      ([95 / 100, 85 / 100, 9 / 10, 7 / 10, 86 / 100, 76 / 100, 81 / 100, 63 / 100] : List ℚ) := by
  rw [calculate_match_confidence_eq]
  split_ifs <;> decide

/-- The confidence score is at least 0.63. -/
theorem confidence_lower (p : PaymentEntry) (inv : Invoice) :
    63 / 100 ≤ calculate_match_confidence p inv := by
  have h := confidence_mem p inv
  simp only [List.mem_cons, List.mem_singleton, List.not_mem_nil, or_false] at h
  rcases h with h | h | h | h | h | h | h | h <;> rw [h] <;> decide

/-- The scenario run, evaluated: one partial match of 4000, status
"matched", remaining 0, invoice balance decremented to 6000. -/
theorem scenario_run :
    process_payment 0 scenarioState "s1" scenarioPayment =
      Except.ok (scenarioResult, scenarioFinalState) := rfl

/-! ## Claim theorems -/

/-- C1 (counterexample): in the claimed scenario — customer CUST001 with a
single open invoice of balance 10000.00 at 45 days outstanding, payment of
4000.00 — the engine returns overall status "matched", because the
remaining amount (payment minus applied total) is zero; the claim's
overall status "partial" is wrong.  The other claimed outcomes (exactly one
match of 4000.00 with match-type "partial", remaining amount 0.00, invoice
balance 6000.00 afterwards) are visible in the evaluated result. -/
theorem C1_counterexample :
    process_payment 0 scenarioState "s1" scenarioPayment =
      Except.ok (scenarioResult, scenarioFinalState)
    ∧ scenarioResult.status = "matched"
    ∧ scenarioResult.status ≠ "partial" :=
  ⟨rfl, rfl, by decide⟩

/-- C1 (amended): in the scenario — CUST001, one open invoice of balance
10000.00 at 45 days, payment of 4000.00 through `process_payment` — the
engine produces exactly one match of 4000.00 with match-type "partial",
the overall status is "matched" (the whole payment was applied, remaining
amount 0.00), and the invoice's balance becomes 6000.00. -/
theorem C1_scenario_partial_application :
    process_payment 0 scenarioState "s1" scenarioPayment =
      Except.ok (scenarioResult, scenarioFinalState)
    ∧ scenarioResult.match_list =
        [{ invoice_id := "INV-001-001", amount_applied := 4000,
           confidence_score := 7 / 10, match_type := "partial" }]
    ∧ scenarioResult.status = "matched"
    ∧ scenarioResult.remaining_amount = 0
    ∧ scenarioFinalState.sample_invoices = [{ scenarioInvoice with balance := 6000 }] :=
  ⟨rfl, rfl, rfl, rfl, rfl⟩

/-- C3: for every payment and invoice, the confidence score equals the
elif chain — 0.95 on an exact amount match to within one cent, else 0.85
when the relative difference to the balance is below 5%, else 0.90 when
the normalized invoice number occurs inside the normalized payment
reference (checked only when neither amount band applied), else 0.70 —
multiplied by 0.9 when the invoice is more than 90 days outstanding, then
rounded to 2 decimal places; and it always lies in [0, 1]. -/
theorem C3_confidence_formula (p : PaymentEntry) (inv : Invoice) :
    (calculate_match_confidence p inv =
      round2 ((if |p.amount - inv.balance| < 1 / 100 then 95 / 100
        else if |p.amount - inv.balance| / inv.balance < 5 / 100 then 85 / 100
        else if containsSub
            (pyReplace (pyReplace inv.invoice_number "-" "") "INV" "").data
            (pyReplace p.reference "-" "").data then 9 / 10
        else 7 / 10) *
        (if 90 < inv.days_outstanding then 9 / 10 else 1)))
    ∧ 0 ≤ calculate_match_confidence p inv
    ∧ calculate_match_confidence p inv ≤ 1 := by
  refine ⟨?_, ?_, ?_⟩
  · rw [calculate_match_confidence_eq]
    by_cases hd : 90 < inv.days_outstanding
    · rw [if_pos hd, if_pos hd]
    · rw [if_neg hd, if_neg hd, mul_one]
  · have h := confidence_mem p inv
    simp only [List.mem_cons, List.mem_singleton, List.not_mem_nil, or_false] at h
    rcases h with h | h | h | h | h | h | h | h <;> rw [h] <;> decide
  · have h := confidence_mem p inv
    simp only [List.mem_cons, List.mem_singleton, List.not_mem_nil, or_false] at h
    rcases h with h | h | h | h | h | h | h | h <;> rw [h] <;> decide

/-- C4 (counterexample): contrary to the claim, no payment and invoice set
makes `_find_payment_matches` produce a match of type "manual": the
residual branch needs an applied amount equal to the balance while the
remaining amount is below the balance, which contradicts the applied
amount being `min(remaining, balance)`. -/
theorem C4_counterexample :
    ¬ ∃ (p : PaymentEntry) (invoices : List Invoice) (m : PaymentMatch),
        m ∈ find_payment_matches p invoices ∧ m.match_type = "manual" := by
  rintro ⟨p, invoices, m, hm, hmt⟩
  rcases findMatchesLoop_match_type p (sortByDaysDesc invoices) p.amount m hm with h | h <;>
    exact absurd (h.symm.trans hmt) (by decide)

/-- C4 (amended): the "manual" residual branch of the match-type
classification is unreachable — every match produced by
`_find_payment_matches` has match-type "exact" or "partial", because the
applied amount is `min(remaining, balance)`: when it is not below the
balance it equals the balance with `balance ≤ remaining`, which the first
branch classifies as "exact". -/
theorem C4_manual_unreachable (p : PaymentEntry) (invoices : List Invoice) :
    ∀ m ∈ find_payment_matches p invoices,
      m.match_type = "exact" ∨ m.match_type = "partial" :=
  fun m hm => findMatchesLoop_match_type p (sortByDaysDesc invoices) p.amount m hm

/-- C4 (witness): the scenario's partial match instantiates the amended
claim. -/
theorem C4_manual_unreachable_witness :
    scenarioMatch ∈ find_payment_matches scenarioPayment [scenarioInvoice]
    ∧ (scenarioMatch.match_type = "exact" ∨ scenarioMatch.match_type = "partial") :=
  ⟨by decide, C4_manual_unreachable scenarioPayment [scenarioInvoice] scenarioMatch (by decide)⟩

/-- C6 (counterexample): with two candidate invoices of equal days
outstanding the candidate sequence (and the produced match order) is a tie
kept in input order, so it is not *strictly* descending in days
outstanding — both tied invoices are visited and matched. -/
theorem C6_counterexample :
    sortByDaysDesc [tieInvoiceA, tieInvoiceB] = [tieInvoiceA, tieInvoiceB]
    ∧ ¬ ((sortByDaysDesc [tieInvoiceA, tieInvoiceB]).Chain'
          fun a b => b.days_outstanding < a.days_outstanding)
    ∧ (find_payment_matches tiePayment [tieInvoiceA, tieInvoiceB]).map
        (fun m => m.invoice_id) = ["INV-T-001", "INV-T-002"] := by
  refine ⟨rfl, ?_, rfl⟩
  rw [show sortByDaysDesc [tieInvoiceA, tieInvoiceB] = [tieInvoiceA, tieInvoiceB] from rfl,
    List.chain'_pair]
  decide

/-- C6 (amended): the candidate sequence visited by
`_find_payment_matches` is in non-increasing (weakly descending) days
outstanding order — strictly descending only up to ties, which keep input
order — and the produced matches follow that candidate order (their id
sequence is a sublist of the sorted candidates' id sequence). -/
theorem C6_candidates_descending (p : PaymentEntry) (invoices : List Invoice) :
    ((sortByDaysDesc invoices).Chain'
      fun a b => b.days_outstanding ≤ a.days_outstanding)
    ∧ ((find_payment_matches p invoices).map fun m => m.invoice_id).Sublist
        ((sortByDaysDesc invoices).map fun inv => inv.invoice_id) :=
  ⟨sortByDaysDesc_chain invoices,
    findMatchesLoop_ids_sublist p (sortByDaysDesc invoices) p.amount⟩

/-- C9 (code evaluated at the failing input): starting a simulation for
session "s" registers its handle; the task terminating on its own leaves
the handle registered — `_simulate_payment_processing` never removes its
entry from `active_simulations` and no done-callback is installed — while
the stop/cancel path does remove it.  The claim that the registry is empty
after normal completion is what the code violates. -/
theorem C9_registry_after_termination :
    start_simulation [] "s" = ["s"]
    ∧ task_terminate (start_simulation [] "s") "s" = ["s"]
    ∧ "s" ∈ task_terminate (start_simulation [] "s") "s"
    ∧ stop_simulation (start_simulation [] "s") "s" = [] := by
  refine ⟨?_, ?_, ?_, ?_⟩ <;> decide

/-- C10: the confidence score is always at least 0.63 (the 0.70 baseline
times the 0.9 aging discount), so the guard skipping matches below 0.5 is
unreachable: every candidate invoice with positive balance visited while
the remaining amount is positive produces a match. -/
theorem C10_low_confidence_guard_unreachable :
    (∀ (p : PaymentEntry) (inv : Invoice),
      63 / 100 ≤ calculate_match_confidence p inv)
    ∧ (∀ (p : PaymentEntry) (inv : Invoice),
        ¬ calculate_match_confidence p inv < 1 / 2)
    ∧ ∀ (p : PaymentEntry) (inv : Invoice) (rest : List Invoice) (r : ℚ),
        0 < r → 0 < inv.balance →
        findMatchesLoop p (inv :: rest) r =
          { invoice_id := inv.invoice_id
            amount_applied := min r inv.balance
            confidence_score := calculate_match_confidence p inv
            match_type := matchTypeFor (min r inv.balance) inv.balance r } ::
            findMatchesLoop p rest (r - min r inv.balance) := by
  refine ⟨confidence_lower, ?_, ?_⟩
  · intro p inv hlt
    have := confidence_lower p inv
    have : (63 : ℚ) / 100 < 1 / 2 := lt_of_le_of_lt this hlt
    exact absurd this (by decide)
  · intro p inv rest r hr hb
    rw [findMatchesLoop_cons, if_neg (not_le.mpr hr), if_neg (not_le.mpr hb)]
    rw [if_neg]
    intro hlt
    have := confidence_lower p inv
    have : (63 : ℚ) / 100 < 1 / 2 := lt_of_le_of_lt this hlt
    exact absurd this (by decide)

/-- C10 (witness): the scenario's invoice and payment instantiate the
loop-step equation. -/
theorem C10_low_confidence_guard_unreachable_witness :
    (0 : ℚ) < 4000 ∧ (0 : ℚ) < scenarioInvoice.balance ∧
    findMatchesLoop scenarioPayment [scenarioInvoice] 4000 =
      { invoice_id := scenarioInvoice.invoice_id
        amount_applied := min 4000 scenarioInvoice.balance
        confidence_score := calculate_match_confidence scenarioPayment scenarioInvoice
        match_type := matchTypeFor (min 4000 scenarioInvoice.balance) scenarioInvoice.balance 4000 } ::
        findMatchesLoop scenarioPayment [] (4000 - min 4000 scenarioInvoice.balance) :=
  ⟨by decide, by decide,
    C10_low_confidence_guard_unreachable.2.2 scenarioPayment scenarioInvoice [] 4000
      (by decide) (by decide)⟩

/-- C2: for every processed payment (valid positive amount, ledger with
pairwise-distinct invoice ids and nonnegative balances): the sum of
`amount_applied` over the produced matches never exceeds the payment
amount; after the apply phase every matched invoice's balance equals
`max 0 (balance_before - amount_applied)` and no balance is negative; and
every match references an invoice of the payment's customer. -/
theorem C2_matching_invariants
    (now : ℚ) (st : PaymentServiceState) (sid : String) (p : PaymentEntry)
    (res : PaymentProcessingResult) (st' : PaymentServiceState)
    (hamt : 0 < p.amount)
    (hids : (st.sample_invoices.map fun i => i.invoice_id).Nodup)
    (hbal : ∀ inv ∈ st.sample_invoices, 0 ≤ inv.balance)
    (hrun : process_payment now st sid p = Except.ok (res, st')) :
    ((res.match_list.map fun m => m.amount_applied).sum ≤ p.amount)
    ∧ (∀ m ∈ res.match_list, ∀ inv ∈ st.sample_invoices,
        inv.invoice_id = m.invoice_id →
        findInvoice st'.sample_invoices m.invoice_id =
          some { inv with balance := max 0 (inv.balance - m.amount_applied) })
    ∧ (∀ inv ∈ st'.sample_invoices, 0 ≤ inv.balance)
    ∧ (∀ m ∈ res.match_list, ∃ inv ∈ st.sample_invoices,
        m.invoice_id = inv.invoice_id ∧ inv.customer_id = p.customer_id) := by
  obtain ⟨hml, hrem, hstat, hst⟩ := process_payment_ok_inv now st sid p res st' hrun
  refine ⟨?_, ?_, ?_, ?_⟩
  · rw [hml]
    exact find_payment_matches_sum_le p _ hamt
  · intro m hm inv hinv hid
    have hnodup : (res.match_list.map fun m => m.invoice_id).Nodup := by
      rw [hml]
      exact find_payment_matches_ids_nodup p st.sample_invoices hids
    rw [hst, findInvoice_applyMatches_self res.match_list st.sample_invoices hnodup m hm,
      ← hid, findInvoice_eq_of_nodup st.sample_invoices hids inv hinv]
    rfl
  · rw [hst]
    exact applyMatches_balance_nonneg res.match_list st.sample_invoices hbal
  · intro m hm
    rw [hml] at hm
    obtain ⟨-, inv, hinv, hid, -, -⟩ := find_payment_matches_mem p _ m hm
    obtain ⟨hmem, hcid, -⟩ :=
      get_customer_invoices_mem st.sample_invoices p.customer_id inv hinv
    exact ⟨inv, hmem, hid, hcid⟩

/-- C2 (witness): the scenario run instantiates the invariants. -/
theorem C2_matching_invariants_witness :
    ((0 : ℚ) < 4000
      ∧ (([scenarioInvoice].map fun i => i.invoice_id).Nodup)
      ∧ (∀ inv ∈ [scenarioInvoice], (0 : ℚ) ≤ inv.balance))
    ∧ ((scenarioResult.match_list.map fun m => m.amount_applied).sum ≤ 4000)
    ∧ (∀ inv ∈ scenarioFinalState.sample_invoices, 0 ≤ inv.balance) := by
  refine ⟨⟨by decide, by decide, by decide⟩, ?_, ?_⟩
  · exact (C2_matching_invariants 0 scenarioState "s1" scenarioPayment scenarioResult
      scenarioFinalState (by decide) (by decide) (by decide) scenario_run).1
  · exact (C2_matching_invariants 0 scenarioState "s1" scenarioPayment scenarioResult
      scenarioFinalState (by decide) (by decide) (by decide) scenario_run).2.2.1

/-- C5: the overall status of a processed payment is "matched" exactly
when the remaining amount (payment amount minus total applied, floored at
zero) is zero, "partial" exactly when some but not all of the payment
amount was applied, and "exception" exactly when nothing was applied. -/
theorem C5_status_rule
    (now : ℚ) (st : PaymentServiceState) (sid : String) (p : PaymentEntry)
    (res : PaymentProcessingResult) (st' : PaymentServiceState)
    (hamt : 0 < p.amount)
    (hrun : process_payment now st sid p = Except.ok (res, st')) :
    (res.status = "matched" ↔ res.remaining_amount = 0)
    ∧ (res.status = "partial" ↔
        0 < (res.match_list.map fun m => m.amount_applied).sum ∧
          (res.match_list.map fun m => m.amount_applied).sum < p.amount)
    ∧ (res.status = "exception" ↔
        (res.match_list.map fun m => m.amount_applied).sum = 0) := by
  obtain ⟨hml, hrem, hstat, -⟩ := process_payment_ok_inv now st sid p res st' hrun
  have hT0 : 0 ≤ (res.match_list.map fun m => m.amount_applied).sum := by
    rw [hml]
    exact find_payment_matches_sum_nonneg p _
  have hTA : (res.match_list.map fun m => m.amount_applied).sum ≤ p.amount := by
    rw [hml]
    exact find_payment_matches_sum_le p _ hamt
  have hremeq : res.remaining_amount =
      p.amount - (res.match_list.map fun m => m.amount_applied).sum := by
    rw [hrem]
    exact max_eq_right (by linarith)
  have hrem_zero : res.remaining_amount = 0 ↔
      (res.match_list.map fun m => m.amount_applied).sum = p.amount := by
    rw [hremeq]
    constructor
    · intro h; linarith
    · intro h; rw [h]; ring
  refine ⟨⟨?_, ?_⟩, ⟨?_, ?_⟩, ⟨?_, ?_⟩⟩
  · intro hs
    by_contra h0
    rw [hstat, if_neg h0] at hs
    split_ifs at hs with h
    · exact absurd hs (by decide)
    · exact absurd hs (by decide)
  · intro h0
    rw [hstat, if_pos h0]
  · intro hs
    rcases eq_or_ne res.remaining_amount 0 with h0 | h0
    · rw [hstat, if_pos h0] at hs
      exact absurd hs (by decide)
    · rw [hstat, if_neg h0] at hs
      split_ifs at hs with hT
      · refine ⟨hT, ?_⟩
        rcases lt_or_eq_of_le hTA with h | h
        · exact h
        · exact absurd (hrem_zero.mpr h) h0
      · exact absurd hs (by decide)
  · rintro ⟨hTpos, hTlt⟩
    have h0 : res.remaining_amount ≠ 0 := fun h =>
      absurd (hrem_zero.mp h) (ne_of_lt hTlt)
    rw [hstat, if_neg h0, if_pos hTpos]
  · intro hs
    rcases eq_or_ne res.remaining_amount 0 with h0 | h0
    · rw [hstat, if_pos h0] at hs
      exact absurd hs (by decide)
    · rw [hstat, if_neg h0] at hs
      split_ifs at hs with hT
      · exact absurd hs (by decide)
      · linarith [not_lt.mp hT]
  · intro hT
    have h0 : res.remaining_amount ≠ 0 := by
      intro h
      have hTa := hrem_zero.mp h
      rw [hT] at hTa
      exact absurd hTa.symm (ne_of_gt hamt)
    rw [hstat, if_neg h0, if_neg (by rw [hT]; exact lt_irrefl 0)]

/-- C5 (witness): the scenario run instantiates the status rule. -/
theorem C5_status_rule_witness :
    (0 : ℚ) < 4000
    ∧ (scenarioResult.status = "matched" ↔ scenarioResult.remaining_amount = 0) :=
  ⟨by decide,
    (C5_status_rule 0 scenarioState "s1" scenarioPayment scenarioResult scenarioFinalState
      (by decide) scenario_run).1⟩

/-- C7: `process_payment` raises the "Invalid session" error exactly when
the session id is unknown or expired; with a live session (and a valid
positive payment amount) it returns a result and raises nothing else; and
only invoices with positive balance become candidates, so the division by
`invoice.balance` in the confidence score never divides by zero. -/
theorem C7_error_contract (now : ℚ) (st : PaymentServiceState) (sid : String)
    (p : PaymentEntry) (_hamt : 0 < p.amount) :
    (process_payment now st sid p = Except.error "Invalid session" ↔
      lookupSession st.sessions sid = none ∨
        ∃ s, lookupSession st.sessions sid = some s ∧
          SESSION_TTL_SECONDS < now - s.created_at)
    ∧ ((∃ s, lookupSession st.sessions sid = some s ∧
          ¬ SESSION_TTL_SECONDS < now - s.created_at) →
        ∃ res st', process_payment now st sid p = Except.ok (res, st'))
    ∧ (∀ e, process_payment now st sid p = Except.error e → e = "Invalid session")
    ∧ (∀ inv ∈ get_customer_invoices st.sample_invoices p.customer_id,
        0 < inv.balance) := by
  obtain ⟨herr, honly⟩ := process_payment_error_iff now st sid p
  refine ⟨?_, ?_, honly, ?_⟩
  · rw [herr, get_session_none_iff]
  · rintro ⟨s, hs, hlive⟩
    apply process_payment_isOk now st sid p s
    unfold get_session
    rw [hs]
    simp only [if_neg hlive]
  · intro inv hinv
    exact (get_customer_invoices_mem st.sample_invoices p.customer_id inv hinv).2.2

/-- C7 (witness): the live scenario session instantiates the contract. -/
theorem C7_error_contract_witness :
    ((0 : ℚ) < 4000
      ∧ ∃ s, lookupSession scenarioState.sessions "s1" = some s ∧
          ¬ SESSION_TTL_SECONDS < (0 : ℚ) - s.created_at)
    ∧ ∃ res st',
        process_payment 0 scenarioState "s1" scenarioPayment = Except.ok (res, st') := by
  refine ⟨⟨by decide, ⟨{ session_id := "s1", created_at := 0 }, rfl, by decide⟩⟩, ?_⟩
  exact (C7_error_contract 0 scenarioState "s1" scenarioPayment (by decide)).2.1
    ⟨{ session_id := "s1", created_at := 0 }, rfl, by decide⟩

/-- C8: the session store sweeps sessions older than the 3600-second TTL
before creating; creation succeeds while the number of live sessions is
below the ceiling of 100 and raises the capacity error at the ceiling;
reading an expired session returns absent and removes that entry. -/
theorem C8_session_store (now : ℚ) (store : SessionStore) (new_id sid : String) :
    (MAX_SESSIONS = 100 ∧ SESSION_TTL_SECONDS = 3600)
    ∧ ((cleanup_expired_sessions now store).length < MAX_SESSIONS →
        create_session now new_id store =
          Except.ok ({ session_id := new_id, created_at := now },
            cleanup_expired_sessions now store ++
              [{ session_id := new_id, created_at := now }]))
    ∧ (MAX_SESSIONS ≤ (cleanup_expired_sessions now store).length →
        create_session now new_id store =
          Except.error "Maximum number of demo sessions reached. Please try again later.")
    ∧ (∀ s, lookupSession store sid = some s →
        SESSION_TTL_SECONDS < now - s.created_at →
        get_session now store sid = (none, eraseSession store sid)
          ∧ lookupSession (eraseSession store sid) sid = none) := by
  refine ⟨⟨rfl, rfl⟩, ?_, ?_, ?_⟩
  · intro h
    unfold create_session
    rw [if_neg (not_le.mpr h)]
  · intro h
    unfold create_session
    rw [if_pos h]
  · intro s hs hexp
    constructor
    · unfold get_session
      rw [hs]
      simp only [if_pos hexp]
    · unfold eraseSession lookupSession
      apply List.find?_eq_none.mpr
      intro x hx
      have hne := (List.mem_filter.mp hx).2
      simp only [bne_iff_ne, ne_eq] at hne
      simp only [beq_iff_eq]
      exact hne

/-- C8 (witness): a store with one expired session (age 4000 s) accepts a
new session after the sweep and evicts the expired entry on read; a store
at the 100-session ceiling raises the capacity error. -/
theorem C8_session_store_witness :
    ((cleanup_expired_sessions 4000
        [{ session_id := "old", created_at := 0 }]).length < MAX_SESSIONS
      ∧ create_session 4000 "new" [{ session_id := "old", created_at := 0 }] =
          Except.ok ({ session_id := "new", created_at := 4000 },
            cleanup_expired_sessions 4000 [{ session_id := "old", created_at := 0 }] ++
              [{ session_id := "new", created_at := 4000 }]))
    ∧ (MAX_SESSIONS ≤ (cleanup_expired_sessions 0 fullStore).length
      ∧ create_session 0 "new" fullStore =
          Except.error "Maximum number of demo sessions reached. Please try again later.")
    ∧ (SESSION_TTL_SECONDS < (4000 : ℚ) - 0
      ∧ get_session 4000 [{ session_id := "old", created_at := 0 }] "old" =
          (none, eraseSession [{ session_id := "old", created_at := 0 }] "old")) := by
  refine ⟨⟨by decide, ?_⟩, ⟨by decide, ?_⟩, ⟨by decide, ?_⟩⟩
  · exact (C8_session_store 4000 [{ session_id := "old", created_at := 0 }] "new" "old").2.1
      (by decide)
  · exact (C8_session_store 0 fullStore "new" "old").2.2.1 (by decide)
  · exact ((C8_session_store 4000 [{ session_id := "old", created_at := 0 }] "new" "old").2.2.2
      { session_id := "old", created_at := 0 } rfl (by decide)).1

end DemoService
